import Mathlib

/-!
Verification development for the Vahan car-transfer dashboard
(`interface.py`).  The definitions below are a shallow embedding of the
pure data-transformation core of the program: record normalization
(`pd.to_datetime(..., errors='coerce')`), the sidebar filter chain, the
pandas `groupby(...).agg(...)` rollups (quarterly, monthly, per-client),
overall totals, the Gantt timeline construction, and the CSV download of
the filtered frame.  Dates are modelled at day granularity (the data
model treats the three date fields as date-or-unknown); machine floats
holding whole currency amounts are modelled as `Option Int` where `none`
stands for a missing value (pandas `NaN`), matching the `sum`-skips-NaN
and `count`-counts-non-null semantics used by the program.
-/

/-- A calendar date, day granularity.  `pd.Timestamp` values in this
program come from parsing date strings, so year/month/day is the whole
observable state. -/
structure Date where
  year : Nat
  month : Nat
  day : Nat
deriving DecidableEq, Repr

/-- Chronological order on dates (lexicographic year, month, day),
matching comparison of pandas timestamps. -/
def dateLe (a b : Date) : Bool :=
  (a.year < b.year) ||
    (a.year == b.year &&
      ((a.month < b.month) || (a.month == b.month && a.day ≤ b.day)))

/-- Gregorian leap-year test, as used by real calendar arithmetic
(`pd.Timedelta(days=7)` addition must roll over month ends). -/
def isLeap (y : Nat) : Bool :=
  (y % 4 == 0 && y % 100 != 0) || (y % 400 == 0)

/-- Number of days in a month of a given year. -/
def daysInMonth (y m : Nat) : Nat :=
  if m == 2 then (if isLeap y then 29 else 28)
  else if m == 4 || m == 6 || m == 9 || m == 11 then 30
  else 31

/-- The day after a date, rolling over month and year ends. -/
def nextDay (d : Date) : Date :=
  if d.day < daysInMonth d.year d.month then ⟨d.year, d.month, d.day + 1⟩
  else if d.month < 12 then ⟨d.year, d.month + 1, 1⟩
  else ⟨d.year + 1, 1, 1⟩

/-- Add `n` days to a date (`transferDate + pd.Timedelta(days=7)`). -/
def addDays (d : Date) : Nat → Date
  | 0 => d
  | n + 1 => nextDay (addDays d n)

/-- A date whose components form a real calendar day. -/
def validDate (d : Date) : Bool :=
  1 ≤ d.month && d.month ≤ 12 && 1 ≤ d.day && d.day ≤ daysInMonth d.year d.month

/-- Digit characters of a natural number, most significant first
(decimal rendering used by pandas when serializing numbers). -/
def natChars (n : Nat) : List Char :=
  if n == 0 then ['0']
  else ((Nat.digits 10 n).reverse).map (fun d => Char.ofNat (48 + d))

/-- Parse a non-empty all-digit character list as a natural number
(leading zeros allowed, as in `"05"`). -/
def parseNatDigits (cs : List Char) : Option Nat :=
  if cs ≠ [] ∧ ∀ c ∈ cs, 48 ≤ c.toNat ∧ c.toNat ≤ 57 then
    some (Nat.ofDigits 10 ((cs.map (fun c => c.toNat - 48)).reverse))
  else none

/-- Split a character list at every dash. -/
def splitDash : List Char → List (List Char)
  | [] => [[]]
  | c :: cs =>
      if c == '-' then [] :: splitDash cs
      else
        match splitDash cs with
        | [] => [[c]]
        | g :: gs => (c :: g) :: gs

/-- Parse an ISO `YYYY-MM-DD` string into a calendar-checked date.
Models `pd.to_datetime(..., errors='coerce')` on the date strings this
program receives: a malformed or impossible date yields `none` (pandas
`NaT`) instead of an error. -/
def parseIsoDate (s : String) : Option Date :=
  match splitDash s.data with
  | [ys, ms, ds] =>
      match parseNatDigits ys, parseNatDigits ms, parseNatDigits ds with
      | some y, some m, some d =>
          if 1 ≤ m && m ≤ 12 && 1 ≤ d && d ≤ daysInMonth y m then
            some ⟨y, m, d⟩
          else none
      | _, _, _ => none
  | _ => none

/-- Parse an optional raw date field: a missing field (absent JSON key)
or an unparseable string both become the unknown-date sentinel `none`. -/
def parseDate (raw : Option String) : Option Date :=
  match raw with
  | none => none
  | some s => parseIsoDate s

/-- One raw record as it arrives from the JSON snapshot: opaque string
attributes, three optional raw date strings, and optional whole-currency
amounts (`none` models an absent key / `NaN`). -/
structure RawRecord where
  carNumber : String
  clientName : String
  caseType : String
  taskType : String
  amountStatus : String
  buyerPayment : String
  transferDate : Option String
  nocIssuedDate : Option String
  invoiceDate : Option String
  totalCost : Option Int
  totalSale : Option Int
  totalDifference : Option Int
deriving DecidableEq, Repr

/-- One normalized case record: the three date fields have been parsed
independently with coercion of failures to `none`. -/
structure CaseRecord where
  carNumber : String
  clientName : String
  caseType : String
  taskType : String
  amountStatus : String
  buyerPayment : String
  transferDate : Option Date
  nocIssuedDate : Option Date
  invoiceDate : Option Date
  totalCost : Option Int
  totalSale : Option Int
  totalDifference : Option Int
deriving DecidableEq, Repr

/-- Normalize one raw record: each date column is converted with
`pd.to_datetime(df[col], errors='coerce')`; all other fields pass
through unchanged. -/
def normalizeOne (r : RawRecord) : CaseRecord :=
  { carNumber := r.carNumber
    clientName := r.clientName
    caseType := r.caseType
    taskType := r.taskType
    amountStatus := r.amountStatus
    buyerPayment := r.buyerPayment
    transferDate := parseDate r.transferDate
    nocIssuedDate := parseDate r.nocIssuedDate
    invoiceDate := parseDate r.invoiceDate
    totalCost := r.totalCost
    totalSale := r.totalSale
    totalDifference := r.totalDifference }

/-- Normalize the whole snapshot, one output row per input row, in
order. -/
def normalizeRecords (rs : List RawRecord) : List CaseRecord :=
  rs.map normalizeOne

/-- The sidebar filter selection.  Each selectbox holds either the
sentinel string `"All"` or a concrete value; `dateRange` is the value of
the `st.date_input` range widget, normally one or two dates. -/
structure FilterSpec where
  selectedCar : String
  selectedClient : String
  selectedCaseType : String
  selectedStatus : String
  dateRange : List Date
deriving DecidableEq, Repr

/-- The filter chain exactly as the program applies it: four sequential
conditional equality filters, then the transfer-date range filter, which
fires only when the date selection has exactly two entries.  A record
with unknown transferDate fails both range comparisons (pandas `NaT`
comparisons are false). -/
def applyFilters (rs : List CaseRecord) (s : FilterSpec) : List CaseRecord :=
  let r1 := if s.selectedCar == "All" then rs
            else rs.filter (fun r => r.carNumber == s.selectedCar)
  let r2 := if s.selectedClient == "All" then r1
            else r1.filter (fun r => r.clientName == s.selectedClient)
  let r3 := if s.selectedCaseType == "All" then r2
            else r2.filter (fun r => r.caseType == s.selectedCaseType)
  let r4 := if s.selectedStatus == "All" then r3
            else r3.filter (fun r => r.amountStatus == s.selectedStatus)
  match s.dateRange with
  | [a, b] =>
      r4.filter (fun r =>
        match r.transferDate with
        | some d => dateLe a d && dateLe d b
        | none => false)
  | _ => r4

/-- Spec-side predicate: the conjunction of the active equality
constraints only (the date dimension ignored). -/
def matchesEq (s : FilterSpec) (r : CaseRecord) : Bool :=
  (s.selectedCar == "All" || r.carNumber == s.selectedCar) &&
  (s.selectedClient == "All" || r.clientName == s.selectedClient) &&
  (s.selectedCaseType == "All" || r.caseType == s.selectedCaseType) &&
  (s.selectedStatus == "All" || r.amountStatus == s.selectedStatus)

/-- Spec-side predicate: the conjunction of all active constraints of a
FilterSpec, the inclusive date range included. -/
def matchesSpec (s : FilterSpec) (r : CaseRecord) : Bool :=
  matchesEq s r &&
  (match s.dateRange with
   | [a, b] =>
       match r.transferDate with
       | some d => dateLe a d && dateLe d b
       | none => false
   | _ => true)

/-- Two-digit zero-padded rendering of a month number, as in the string
form of a pandas monthly period. -/
def pad2 (n : Nat) : String :=
  if n < 10 then "0" ++ toString n else toString n

/-- Quarter of a month: months 1-3 map to 1, 4-6 to 2, 7-9 to 3,
10-12 to 4. -/
def quarterOfMonth (m : Nat) : Nat := (m + 2) / 3

/-- Quarter bucket key of a transfer date, the string form of
`transferDate.dt.to_period('Q').astype(str)`.  An unknown date (`NaT`)
is stringified to the literal text `"NaT"`, which then behaves as an
ordinary group key. -/
def quarterKey (d : Option Date) : String :=
  match d with
  | none => "NaT"
  | some d => toString d.year ++ "Q" ++ toString (quarterOfMonth d.month)

/-- Month bucket key of a transfer date, the string form of
`transferDate.dt.to_period('M').astype(str)`; `NaT` again stringifies to
`"NaT"`. -/
def monthKey (d : Option Date) : String :=
  match d with
  | none => "NaT"
  | some d => toString d.year ++ "-" ++ pad2 d.month

/-- Quarter key of a whole record. -/
def quarterKeyOf (r : CaseRecord) : String := quarterKey r.transferDate

/-- Month key of a whole record. -/
def monthKeyOf (r : CaseRecord) : String := monthKey r.transferDate

/-- Client key of a whole record (`groupby('Client Name')`). -/
def clientKeyOf (r : CaseRecord) : String := r.clientName

/-- One aggregate row produced by
`groupby(...).agg({'Total Sale': 'sum', 'Total Cost': 'sum',
'Total Difference': 'sum', 'Car Number': 'count'})`. -/
structure Rollup where
  sale : Int
  cost : Int
  diff : Int
  count : Nat
deriving DecidableEq, Repr

/-- Sum of the `Total Sale` column over a record list; a missing value
(pandas `NaN`) is skipped, i.e. contributes zero. -/
def saleSum (rs : List CaseRecord) : Int :=
  (rs.map (fun r => r.totalSale.getD 0)).sum

/-- Sum of the `Total Cost` column, missing values contributing zero. -/
def costSum (rs : List CaseRecord) : Int :=
  (rs.map (fun r => r.totalCost.getD 0)).sum

/-- Sum of the `Total Difference` column, missing values contributing
zero. -/
def diffSum (rs : List CaseRecord) : Int :=
  (rs.map (fun r => r.totalDifference.getD 0)).sum

/-- Aggregate a record list into a Rollup.  The count is the number of
rows (the program counts the always-present `Car Number` column). -/
def rollupOf (rs : List CaseRecord) : Rollup :=
  { sale := saleSum rs, cost := costSum rs, diff := diffSum rs, count := rs.length }

/-- The records of a bucket: those rows of the frame whose key equals
the bucket key. -/
def bucketRecords (key : CaseRecord → String) (rs : List CaseRecord) (k : String) :
    List CaseRecord :=
  rs.filter (fun r => key r == k)

/-- The Rollup of one bucket. -/
def bucketRollup (key : CaseRecord → String) (rs : List CaseRecord) (k : String) :
    Rollup :=
  rollupOf (bucketRecords key rs k)

/-- The distinct keys occurring in the frame under a key function. -/
def groupKeys (key : CaseRecord → String) (rs : List CaseRecord) : List String :=
  (rs.map key).dedup

/-- Generic groupby: one `(key, Rollup)` row per distinct key. -/
def groupBy (key : CaseRecord → String) (rs : List CaseRecord) :
    List (String × Rollup) :=
  (groupKeys key rs).map (fun k => (k, bucketRollup key rs k))

/-- Quarterly rollup of the filtered frame
(`filtered_df.groupby('Quarter').agg(...)`). -/
def groupByQuarter (rs : List CaseRecord) : List (String × Rollup) :=
  groupBy quarterKeyOf rs

/-- Monthly rollup of the filtered frame
(`filtered_df.groupby('Month').agg(...)`). -/
def groupByMonth (rs : List CaseRecord) : List (String × Rollup) :=
  groupBy monthKeyOf rs

/-- Client rollup of the filtered frame
(`filtered_df.groupby('Client Name').agg(...)`). -/
def groupByClient (rs : List CaseRecord) : List (String × Rollup) :=
  groupBy clientKeyOf rs

/-- One bar of the Gantt timeline chart: a 7-day span carrying an
amount (kept as the optional raw value) and a task label. -/
structure TimelineSpan where
  start : Date
  stop : Date
  amount : Option Int
  task : String
deriving DecidableEq, Repr

/-- The Gantt frame construction: rows with unknown transferDate are
dropped (`dropna(subset=['transferDate'])`), each surviving row yields a
profit span, a copied frame relabels the rows as cost spans with the
amount column overwritten by `Total Cost`, and the two frames are
concatenated. -/
def buildTimeline (rs : List CaseRecord) : List TimelineSpan :=
  let g := rs.filter (fun r => r.transferDate.isSome)
  g.map (fun r =>
      { start := r.transferDate.getD ⟨0, 0, 0⟩
        stop := addDays (r.transferDate.getD ⟨0, 0, 0⟩) 7
        amount := r.totalDifference
        task := r.clientName ++ " Profit" })
    ++
  g.map (fun r =>
      { start := r.transferDate.getD ⟨0, 0, 0⟩
        stop := addDays (r.transferDate.getD ⟨0, 0, 0⟩) 7
        amount := r.totalCost
        task := r.clientName ++ " Cost" })

/-- Column headers of the exported CSV: the frame's own column names,
exactly as fetched (the `'Buyer payment' -> 'Status'` relabel happens
only on the separate on-screen overview copy). -/
def fieldNames : List String :=
  ["Car Number", "Client Name", "Case Type", "Task Type", "Amount Status",
   "Buyer payment", "transferDate", "NOCissuedDate", "Invoice Date",
   "Total Cost", "Total Sale", "Total Difference"]

/-- Decimal digit characters of a number, left-padded with zeros to
width `k`. -/
def padChars (k n : Nat) : List Char :=
  List.replicate (k - (natChars n).length) '0' ++ natChars n

/-- Render a date cell: `NaT` becomes the empty cell, a date becomes
zero-padded ISO text, as pandas `to_csv` renders a datetime column. -/
def renderDateCell (d : Option Date) : String :=
  match d with
  | none => ""
  | some d =>
      String.mk (padChars 4 d.year ++ '-' :: padChars 2 d.month ++ '-' :: padChars 2 d.day)

/-- Render an integer cell (sign then decimal digits). -/
def renderIntCell (i : Option Int) : String :=
  match i with
  | none => ""
  | some i =>
      if i < 0 then "-" ++ String.mk (natChars i.natAbs)
      else String.mk (natChars i.natAbs)

/-- One CSV data row for a record, cells in header order, raw
(unformatted) values as `filtered_df.to_csv` writes them. -/
def renderRow (r : CaseRecord) : List String :=
  [r.carNumber, r.clientName, r.caseType, r.taskType, r.amountStatus,
   r.buyerPayment, renderDateCell r.transferDate,
   renderDateCell r.nocIssuedDate, renderDateCell r.invoiceDate,
   renderIntCell r.totalCost, renderIntCell r.totalSale,
   renderIntCell r.totalDifference]

/-- The exported CSV of the filtered frame, as a header row followed by
one data row per record (cell level; comma quoting is byte-level
mechanics outside the engine). -/
def csvExport (rs : List CaseRecord) : List (List String) :=
  fieldNames :: rs.map renderRow

/-- Re-parse a date cell: the empty cell is a present-but-unknown date,
anything else must be an ISO date. -/
def parseDateCell (s : String) : Option (Option Date) :=
  if s == "" then some none
  else (parseIsoDate s).map some

/-- Re-parse an integer cell. -/
def parseIntCell (s : String) : Option (Option Int) :=
  match s.data with
  | [] => some none
  | c :: cs =>
      if c == '-' then (parseNatDigits cs).map (fun n => some (-(n : Int)))
      else (parseNatDigits (c :: cs)).map (fun n => some ((n : Int)))

/-- Re-parse one CSV data row into a record. -/
def parseRow (cells : List String) : Option CaseRecord :=
  match cells with
  | [car, client, ctype, ttype, astat, bpay, td, noc, inv, tc, ts, tdiff] =>
      match parseDateCell td, parseDateCell noc, parseDateCell inv,
            parseIntCell tc, parseIntCell ts, parseIntCell tdiff with
      | some d1, some d2, some d3, some c1, some c2, some c3 =>
          some { carNumber := car, clientName := client, caseType := ctype,
                 taskType := ttype, amountStatus := astat, buyerPayment := bpay,
                 transferDate := d1, nocIssuedDate := d2, invoiceDate := d3,
                 totalCost := c1, totalSale := c2, totalDifference := c3 }
      | _, _, _, _, _, _ => none
  | _ => none

/-- A record whose date fields are either unknown or real calendar days
with a four-digit year (every date this program can actually receive). -/
def validRecord (r : CaseRecord) : Bool :=
  (match r.transferDate with
   | none => true
   | some d => validDate d && d.year < 10000) &&
  (match r.nocIssuedDate with
   | none => true
   | some d => validDate d && d.year < 10000) &&
  (match r.invoiceDate with
   | none => true
   | some d => validDate d && d.year < 10000)

/-! ### Helper lemmas: decimal digit strings -/

lemma digitChar_toNat (d : Nat) (h : d < 10) : (Char.ofNat (48 + d)).toNat = 48 + d := by
  interval_cases d <;> decide

lemma natChars_of_ne (n : Nat) (h : n ≠ 0) :
    natChars n = ((Nat.digits 10 n).reverse).map (fun d => Char.ofNat (48 + d)) := by
  simp [natChars, h]

lemma natChars_bounds (n : Nat) : ∀ c ∈ natChars n, 48 ≤ c.toNat ∧ c.toNat ≤ 57 := by
  intro c hc
  by_cases h0 : n = 0
  · subst h0
    simp [natChars] at hc
    subst hc; decide
  · rw [natChars_of_ne n h0] at hc
    simp only [List.mem_map, List.mem_reverse] at hc
    obtain ⟨d, hd, rfl⟩ := hc
    have hlt : d < 10 := Nat.digits_lt_base (by norm_num) hd
    rw [digitChar_toNat d hlt]
    omega

lemma natChars_ne_nil (n : Nat) : natChars n ≠ [] := by
  by_cases h0 : n = 0
  · subst h0; simp [natChars]
  · rw [natChars_of_ne n h0]
    have h10 : Nat.digits 10 n ≠ [] := Nat.digits_ne_nil_iff_ne_zero.mpr h0
    simp [h10]

lemma natChars_no_dash (n : Nat) : '-' ∉ natChars n := by
  intro h
  exact absurd (natChars_bounds n '-' h) (by decide)

lemma padChars_bounds (k n : Nat) : ∀ c ∈ padChars k n, 48 ≤ c.toNat ∧ c.toNat ≤ 57 := by
  intro c hc
  unfold padChars at hc
  rcases List.mem_append.mp hc with h | h
  · have := List.eq_of_mem_replicate h
    subst this; decide
  · exact natChars_bounds n c h

lemma padChars_ne_nil (k n : Nat) : padChars k n ≠ [] := by
  unfold padChars
  intro h
  rcases List.append_eq_nil.mp h with ⟨_, h2⟩
  exact natChars_ne_nil n h2

lemma padChars_no_dash (k n : Nat) : '-' ∉ padChars k n := by
  intro h
  exact absurd (padChars_bounds k n '-' h) (by decide)

lemma ofDigits_replicate_zero (k : Nat) : Nat.ofDigits 10 (List.replicate k 0) = 0 := by
  induction k with
  | zero => rfl
  | succ k ih => simp [List.replicate, Nat.ofDigits, ih]

lemma natChars_val (n : Nat) :
    Nat.ofDigits 10 (((natChars n).map (fun c => c.toNat - 48)).reverse) = n := by
  by_cases h0 : n = 0
  · subst h0; simp [natChars, Nat.ofDigits]
  · rw [natChars_of_ne n h0, List.map_map]
    have hmap : (Nat.digits 10 n).reverse.map ((fun c => c.toNat - 48) ∘ fun d => Char.ofNat (48 + d))
        = (Nat.digits 10 n).reverse := by
      have h1 : (Nat.digits 10 n).reverse.map ((fun c => c.toNat - 48) ∘ fun d => Char.ofNat (48 + d))
          = (Nat.digits 10 n).reverse.map id := by
        apply List.map_congr_left
        intro d hd
        have hlt : d < 10 := Nat.digits_lt_base (by norm_num) (List.mem_reverse.mp hd)
        simp [Function.comp, digitChar_toNat d hlt]
      rw [h1, List.map_id]
    rw [hmap, List.reverse_reverse, Nat.ofDigits_digits]

lemma parseNatDigits_natChars (n : Nat) : parseNatDigits (natChars n) = some n := by
  unfold parseNatDigits
  rw [if_pos ⟨natChars_ne_nil n, natChars_bounds n⟩, natChars_val]

lemma parseNatDigits_padChars (k n : Nat) : parseNatDigits (padChars k n) = some n := by
  unfold parseNatDigits
  rw [if_pos ⟨padChars_ne_nil k n, padChars_bounds k n⟩]
  unfold padChars
  rw [List.map_append, List.reverse_append]
  have hrep : (List.replicate (k - (natChars n).length) '0').map (fun c => c.toNat - 48)
      = List.replicate (k - (natChars n).length) 0 := by
    rw [List.map_replicate]; rfl
  rw [hrep, List.reverse_replicate, Nat.ofDigits_append, ofDigits_replicate_zero, natChars_val]
  simp

/-! ### Helper lemmas: dash splitting -/

lemma splitDash_no_dash (cs : List Char) (h : '-' ∉ cs) : splitDash cs = [cs] := by
  induction cs with
  | nil => rfl
  | cons c cs ih =>
      have hc : c ≠ '-' := fun he => h (he ▸ List.mem_cons_self c cs)
      have hcs : '-' ∉ cs := fun hm => h (List.mem_cons_of_mem c hm)
      simp only [splitDash, beq_iff_eq, if_neg hc, ih hcs]

lemma splitDash_append (a rest : List Char) (h : '-' ∉ a) :
    splitDash (a ++ '-' :: rest) = a :: splitDash rest := by
  induction a with
  | nil => simp [splitDash]
  | cons c cs ih =>
      have hc : c ≠ '-' := fun he => h (he ▸ List.mem_cons_self c cs)
      have hcs : '-' ∉ cs := fun hm => h (List.mem_cons_of_mem c hm)
      simp only [List.cons_append, splitDash, beq_iff_eq, if_neg hc, ih hcs]
      cases hsd : splitDash (cs ++ '-' :: rest) with
      | nil => rw [ih hcs] at hsd; exact absurd hsd (by simp)
      | cons g gs =>
          rw [ih hcs] at hsd
          injection hsd with h1 h2
          subst h1; subst h2; rfl

/-! ### Helper lemmas: cell round-trips -/

lemma data_mk (cs : List Char) : (String.mk cs).data = cs := rfl

lemma data_renderDateCell (d : Date) :
    (renderDateCell (some d)).data
      = padChars 4 d.year ++ '-' :: (padChars 2 d.month ++ '-' :: padChars 2 d.day) := by
  simp only [renderDateCell]
  simp [List.cons_append]

lemma parseIsoDate_render (d : Date) (hv : validDate d = true) :
    parseIsoDate (renderDateCell (some d)) = some d := by
  unfold parseIsoDate
  rw [data_renderDateCell,
      splitDash_append _ _ (padChars_no_dash 4 d.year),
      splitDash_append _ _ (padChars_no_dash 2 d.month),
      splitDash_no_dash _ (padChars_no_dash 2 d.day)]
  simp only [parseNatDigits_padChars]
  simp only [validDate, Bool.and_eq_true, decide_eq_true_eq] at hv
  have hif : (1 ≤ d.month && d.month ≤ 12 && 1 ≤ d.day && d.day ≤ daysInMonth d.year d.month) = true := by
    simp only [Bool.and_eq_true, decide_eq_true_eq]
    exact hv
  rw [hif]
  simp

lemma renderDateCell_ne_empty (d : Date) : renderDateCell (some d) ≠ "" := by
  intro h
  have hd := congrArg String.data h
  rw [data_renderDateCell] at hd
  exact absurd hd (by simp)

lemma parseDateCell_render (od : Option Date)
    (hv : (match od with | none => true | some d => validDate d && d.year < 10000) = true) :
    parseDateCell (renderDateCell od) = some od := by
  cases od with
  | none => rfl
  | some d =>
      simp only [Bool.and_eq_true, decide_eq_true_eq] at hv
      unfold parseDateCell
      rw [if_neg (by simpa using renderDateCell_ne_empty d), parseIsoDate_render d hv.1]
      rfl

lemma parseIntCell_render (oi : Option Int) : parseIntCell (renderIntCell oi) = some oi := by
  cases oi with
  | none => rfl
  | some i =>
      by_cases hneg : i < 0
      · have hdata : (renderIntCell (some i)).data = '-' :: natChars i.natAbs := by
          simp only [renderIntCell, if_pos hneg]
          rw [String.data_append]
          rfl
        unfold parseIntCell
        rw [hdata]
        have habs : ((i.natAbs : Int)) = -i := by omega
        simp [parseNatDigits_natChars, habs]
      · have hdata : (renderIntCell (some i)).data = natChars i.natAbs := by
          simp only [renderIntCell, if_neg hneg]
        unfold parseIntCell
        rw [hdata]
        rcases hn : natChars i.natAbs with _ | ⟨c, cs⟩
        · exact absurd hn (natChars_ne_nil i.natAbs)
        · have hc : (c == '-') = false := by
            have hb := natChars_bounds i.natAbs c (by rw [hn]; exact List.mem_cons_self c cs)
            rcases Bool.eq_false_or_eq_true (c == '-') with h | h
            · have hce : c = '-' := by simpa using h
              subst hce
              exact absurd hb (by decide)
            · exact h
          have habs : ((i.natAbs : Int)) = i := by omega
          simp [hc, ← hn, parseNatDigits_natChars, habs]

lemma parseRow_renderRow (r : CaseRecord) (hv : validRecord r = true) :
    parseRow (renderRow r) = some r := by
  unfold validRecord at hv
  simp only [Bool.and_eq_true] at hv
  obtain ⟨⟨h1, h2⟩, h3⟩ := hv
  simp only [renderRow, parseRow]
  rw [parseDateCell_render r.transferDate h1, parseDateCell_render r.nocIssuedDate h2,
      parseDateCell_render r.invoiceDate h3, parseIntCell_render r.totalCost,
      parseIntCell_render r.totalSale, parseIntCell_render r.totalDifference]

/-! ### Helper lemmas: filter engine -/

lemma if_filter (b : Bool) (p : CaseRecord → Bool) (rs : List CaseRecord) :
    (if b = true then rs else rs.filter p) = rs.filter (fun r => b || p r) := by
  cases b <;> simp

lemma applyFilters_eq_filter (rs : List CaseRecord) (s : FilterSpec) :
    applyFilters rs s = rs.filter (matchesSpec s) := by
  simp only [applyFilters]
  rcases hd : s.dateRange with _ | ⟨a, _ | ⟨b, _ | ⟨c, rest⟩⟩⟩ <;>
    simp only [hd] <;>
    rw [if_filter, if_filter, if_filter, if_filter] <;>
    simp only [List.filter_filter] <;>
    (apply List.filter_congr
     intro r _
     simp [matchesSpec, matchesEq, hd, Bool.and_comm, Bool.and_left_comm, Bool.and_assoc])

lemma dateLe_antisymm (a b : Date) (h1 : dateLe a b = true) (h2 : dateLe b a = true) :
    a = b := by
  cases a with
  | mk ya ma da =>
    cases b with
    | mk yb mb db =>
      simp only [dateLe, Bool.or_eq_true, Bool.and_eq_true, decide_eq_true_eq,
        beq_iff_eq] at h1 h2
      simp only [Date.mk.injEq]
      omega

/-! ### Helper lemmas: bucket sums partition the total -/

lemma sum_map_filter_split (f : CaseRecord → Int) (p : CaseRecord → Bool) (rs : List CaseRecord) :
    ((rs.filter p).map f).sum + ((rs.filter (fun r => !(p r))).map f).sum = (rs.map f).sum := by
  induction rs with
  | nil => simp
  | cons x xs ih => by_cases h : p x <;> simp [h] <;> omega

lemma filter_ne_filter_eq (key : CaseRecord → String) (k k' : String) (hne : k' ≠ k)
    (rs : List CaseRecord) :
    (rs.filter (fun r => !(key r == k))).filter (fun r => key r == k')
      = rs.filter (fun r => key r == k') := by
  rw [List.filter_filter]
  apply List.filter_congr
  intro r _
  cases h : (key r == k') with
  | false => simp [h]
  | true =>
      have he : key r = k' := by simpa using h
      have hkk : (k' == k) = false := beq_eq_false_iff_ne.mpr hne
      simp [h, he, hkk]

lemma sum_over_groups (key : CaseRecord → String) (f : CaseRecord → Int) :
    ∀ (ks : List String) (rs : List CaseRecord), ks.Nodup →
      (∀ r ∈ rs, key r ∈ ks) →
      (ks.map (fun k => ((rs.filter (fun r => key r == k)).map f).sum)).sum
        = (rs.map f).sum := by
  intro ks
  induction ks with
  | nil =>
      intro rs _ hmem
      cases rs with
      | nil => simp
      | cons a l => exact absurd (hmem a (List.mem_cons_self a l)) (List.not_mem_nil (key a))
  | cons k ks ih =>
      intro rs hnd hmem
      simp only [List.map_cons, List.sum_cons]
      have hknotin : k ∉ ks := (List.nodup_cons.mp hnd).1
      have hdisj : ∀ k' ∈ ks,
          (rs.filter (fun r => !(key r == k))).filter (fun r => key r == k')
            = rs.filter (fun r => key r == k') :=
        fun k' hk' => filter_ne_filter_eq key k k' (fun he => hknotin (he ▸ hk')) rs
      have hmem' : ∀ r ∈ rs.filter (fun r => !(key r == k)), key r ∈ ks := by
        intro r hr
        rcases List.mem_filter.mp hr with ⟨hrm, hneq⟩
        rcases List.mem_cons.mp (hmem r hrm) with h | h
        · simp [h] at hneq
        · exact h
      have hmapeq : ks.map (fun k' => ((rs.filter (fun r => key r == k')).map f).sum)
          = ks.map (fun k' =>
              (((rs.filter (fun r => !(key r == k))).filter (fun r => key r == k')).map f).sum) := by
        apply List.map_congr_left
        intro k' hk'
        rw [hdisj k' hk']
      rw [hmapeq, ih (rs.filter (fun r => !(key r == k))) (List.nodup_cons.mp hnd).2 hmem']
      exact sum_map_filter_split f _ rs

lemma groupBy_field_sum (key : CaseRecord → String) (f : CaseRecord → Int) (g : Rollup → Int)
    (hg : ∀ l : List CaseRecord, g (rollupOf l) = (l.map f).sum) (rs : List CaseRecord) :
    ((groupBy key rs).map (fun kr => g kr.2)).sum = (rs.map f).sum := by
  unfold groupBy bucketRollup
  rw [List.map_map]
  have hcomp : ((fun kr : String × Rollup => g kr.2) ∘ fun k => (k, rollupOf (bucketRecords key rs k)))
      = fun k => ((bucketRecords key rs k).map f).sum := by
    funext k
    simp [Function.comp, hg]
  rw [hcomp]
  simp only [bucketRecords, groupKeys]
  exact sum_over_groups key f _ rs (List.nodup_dedup _)
    (fun r hr => List.mem_dedup.mpr (List.mem_map_of_mem key hr))

lemma fieldSum_erase (f : CaseRecord → Int) (rs : List CaseRecord) (r : CaseRecord)
    (h : r ∈ rs) :
    (rs.map f).sum = f r + ((rs.erase r).map f).sum := by
  have hp := List.perm_cons_erase h
  have h2 := (hp.map f).sum_eq
  simpa using h2

/-! ### Helper lemmas: timeline and bucket appends -/

lemma filter_isSome_map (F : CaseRecord → Date → TimelineSpan) (rs : List CaseRecord) :
    (rs.filter (fun r => r.transferDate.isSome)).map
        (fun r => F r (r.transferDate.getD ⟨0, 0, 0⟩))
      = rs.filterMap (fun r => r.transferDate.map (F r)) := by
  induction rs with
  | nil => rfl
  | cons x xs ih =>
      cases hx : x.transferDate with
      | none => simp [List.filter, List.filterMap, hx, ih]
      | some d => simp [List.filter, List.filterMap, hx, ih]

lemma bucketRecords_append_self (key : CaseRecord → String) (rs : List CaseRecord)
    (r : CaseRecord) :
    bucketRecords key (rs ++ [r]) (key r) = bucketRecords key rs (key r) ++ [r] := by
  unfold bucketRecords
  rw [List.filter_append]
  simp

lemma saleSum_append (l1 l2 : List CaseRecord) :
    saleSum (l1 ++ l2) = saleSum l1 + saleSum l2 := by
  simp [saleSum]

lemma costSum_append (l1 l2 : List CaseRecord) :
    costSum (l1 ++ l2) = costSum l1 + costSum l2 := by
  simp [costSum]

lemma diffSum_append (l1 l2 : List CaseRecord) :
    diffSum (l1 ++ l2) = diffSum l1 + diffSum l2 := by
  simp [diffSum]

lemma filterMap_parseRow_renderRow (rs : List CaseRecord)
    (hv : ∀ r ∈ rs, validRecord r = true) :
    (rs.map renderRow).filterMap parseRow = rs := by
  induction rs with
  | nil => rfl
  | cons x xs ih =>
      have hx := hv x (List.mem_cons_self x xs)
      have hxs : ∀ r ∈ xs, validRecord r = true := fun r hr => hv r (List.mem_cons_of_mem x hr)
      simp [List.filterMap, parseRow_renderRow x hx, ih hxs]

/-! ### Concrete sample data used by witnesses and counterexamples -/

/-- A record with a known transferDate and all amounts present. -/
def sampleKnown : CaseRecord :=
  ⟨"A1", "X", "Transfer", "t", "Received", "Done", some ⟨2024, 1, 10⟩, none, none,
    some 40, some 100, some 60⟩

/-- A record whose transferDate is unknown (missing or unparseable). -/
def sampleUnknown : CaseRecord :=
  ⟨"A3", "X", "Transfer", "t", "Received", "Done", none, none, none,
    some 10, some 20, some 10⟩

/-- A record whose numeric fields are all missing. -/
def sampleNoAmounts : CaseRecord :=
  ⟨"A4", "Y", "Transfer", "t", "Received", "Done", some ⟨2024, 5, 15⟩, none, none,
    none, none, none⟩

/-- The all-pass filter selection (every selectbox on `"All"`, no date
range active). -/
def allSpec : FilterSpec := ⟨"All", "All", "All", "All", []⟩

/-- A degenerate one-day date range selection. -/
def degSpec : FilterSpec := ⟨"All", "All", "All", "All", [⟨2024, 1, 10⟩, ⟨2024, 1, 10⟩]⟩

/-- A single-date (incomplete) date selection. -/
def oneDateSpec : FilterSpec := ⟨"All", "All", "All", "All", [⟨2024, 1, 10⟩]⟩

/-- A raw record whose transfer-date string does not parse. -/
def badRaw : RawRecord :=
  ⟨"A1", "X", "T", "t", "R", "D", some "not-a-date", none, none, none, none, some 5⟩

/-! ### Claim theorems -/

/-- C3: `applyFilters` returns exactly the in-order subsequence of the
input satisfying the conjunction of all active constraints
(`matchesSpec`), with exact case-sensitive equality and an inclusive
date range; a degenerate one-day range admits only records dated that
exact day; the output never exceeds the input in length. -/
theorem c3_filter_semantics :
    ∀ (R : List CaseRecord) (S : FilterSpec),
      applyFilters R S = R.filter (matchesSpec S)
      ∧ (applyFilters R S).Sublist R
      ∧ (applyFilters R S).length ≤ R.length
      ∧ (∀ a : Date, S.dateRange = [a, a] →
          ∀ r ∈ applyFilters R S, r.transferDate = some a) := by
  intro R S
  refine ⟨applyFilters_eq_filter R S, ?_, ?_, ?_⟩
  · rw [applyFilters_eq_filter]
    exact List.filter_sublist R
  · rw [applyFilters_eq_filter]
    exact List.length_filter_le _ R
  · intro a hda r hr
    rw [applyFilters_eq_filter] at hr
    have hm := (List.mem_filter.mp hr).2
    simp only [matchesSpec, hda, Bool.and_eq_true] at hm
    cases ht : r.transferDate with
    | none => rw [ht] at hm; simp at hm
    | some d =>
        rw [ht] at hm
        have hdd := hm.2
        simp only [Bool.and_eq_true] at hdd
        rw [dateLe_antisymm a d hdd.1 hdd.2]

theorem c3_filter_semantics_witness :
    oneDateSpec.dateRange ≠ [⟨2024, 1, 10⟩, ⟨2024, 1, 10⟩]
    ∧ sampleKnown ∈ applyFilters [sampleKnown, sampleUnknown] degSpec
    ∧ sampleKnown.transferDate = some ⟨2024, 1, 10⟩ :=
  ⟨by decide, by decide,
    (c3_filter_semantics [sampleKnown, sampleUnknown] degSpec).2.2.2
      ⟨2024, 1, 10⟩ rfl sampleKnown (by decide)⟩

/-- C9: filtering is idempotent — applying the same FilterSpec to its
own output reproduces that output exactly; both computations are pure
functions of their arguments. -/
theorem c9_filter_idempotent :
    ∀ (R : List CaseRecord) (S : FilterSpec),
      applyFilters (applyFilters R S) S = applyFilters R S := by
  intro R S
  rw [applyFilters_eq_filter, applyFilters_eq_filter, List.filter_filter]
  apply List.filter_congr
  intro r _
  simp [Bool.and_self]

/-- C10: the transfer-date range constraint fires only when the date
selection has exactly two entries; with a single selected date the date
dimension is wholly unconstrained (even unknown transferDates pass) and
only the equality constraints filter the records. -/
theorem c10_single_date_unconstrained :
    ∀ (R : List CaseRecord) (S : FilterSpec) (a : Date),
      S.dateRange = [a] → applyFilters R S = R.filter (matchesEq S) := by
  intro R S a hda
  rw [applyFilters_eq_filter]
  apply List.filter_congr
  intro r _
  simp [matchesSpec, hda]

theorem c10_single_date_unconstrained_witness :
    oneDateSpec.dateRange = [⟨2024, 1, 10⟩]
    ∧ applyFilters [sampleKnown, sampleUnknown] oneDateSpec
        = List.filter (matchesEq oneDateSpec) [sampleKnown, sampleUnknown]
    ∧ applyFilters [sampleKnown, sampleUnknown] oneDateSpec
        = [sampleKnown, sampleUnknown] :=
  ⟨rfl, c10_single_date_unconstrained [sampleKnown, sampleUnknown] oneDateSpec
      ⟨2024, 1, 10⟩ rfl, by decide⟩

/-- C8: the quarter bucket key is `"{year}Q{q}"` with q determined by
the month (1-3 to 1, 4-6 to 2, 7-9 to 3, 10-12 to 4), the month bucket
key is `"{year}-{2-digit month}"`, and 2024-05-15 yields `"2024Q2"` and
`"2024-05"`. -/
theorem c8_bucket_key_format :
    ∀ (y m d : Nat), 1 ≤ m → m ≤ 12 →
      (quarterKey (some ⟨y, m, d⟩)
          = toString y ++ "Q"
            ++ toString (if m ≤ 3 then 1 else if m ≤ 6 then 2 else if m ≤ 9 then 3 else 4)
        ∧ monthKey (some ⟨y, m, d⟩)
          = toString y ++ "-" ++ (if m < 10 then "0" ++ toString m else toString m))
      ∧ quarterKey (some ⟨2024, 5, 15⟩) = "2024Q2"
      ∧ monthKey (some ⟨2024, 5, 15⟩) = "2024-05" := by
  intro y m d h1 h2
  refine ⟨⟨?_, ?_⟩, by decide, by decide⟩
  · unfold quarterKey quarterOfMonth
    interval_cases m <;> simp
  · unfold monthKey pad2
    rfl

theorem c8_bucket_key_format_witness :
    quarterKey (some ⟨2024, 5, 15⟩) = "2024Q2"
    ∧ monthKey (some ⟨2024, 5, 15⟩) = "2024-05" :=
  ⟨(c8_bucket_key_format 2024 5 15 (by decide) (by decide)).2.1,
   (c8_bucket_key_format 2024 5 15 (by decide) (by decide)).2.2⟩

/-- C7: normalization turns N raw records into exactly N typed records
in the same order; each date field is parsed independently, a missing or
unparseable date becoming the unknown-date sentinel for that field only,
while every other field passes through — no record is dropped or
rejected. -/
theorem c7_normalizer_contract :
    ∀ (raws : List RawRecord),
      (normalizeRecords raws).length = raws.length
      ∧ (∀ i : Nat, (normalizeRecords raws)[i]? = (raws[i]?).map normalizeOne)
      ∧ (∀ raw : RawRecord,
          (normalizeOne raw).transferDate = parseDate raw.transferDate
          ∧ (normalizeOne raw).nocIssuedDate = parseDate raw.nocIssuedDate
          ∧ (normalizeOne raw).invoiceDate = parseDate raw.invoiceDate
          ∧ (raw.transferDate = none → (normalizeOne raw).transferDate = none)
          ∧ (∀ s : String, raw.transferDate = some s → parseIsoDate s = none →
              (normalizeOne raw).transferDate = none)
          ∧ (normalizeOne raw).carNumber = raw.carNumber
          ∧ (normalizeOne raw).clientName = raw.clientName
          ∧ (normalizeOne raw).caseType = raw.caseType
          ∧ (normalizeOne raw).totalCost = raw.totalCost
          ∧ (normalizeOne raw).totalSale = raw.totalSale
          ∧ (normalizeOne raw).totalDifference = raw.totalDifference) := by
  intro raws
  refine ⟨by simp [normalizeRecords], fun i => by simp [normalizeRecords], fun raw =>
    ⟨rfl, rfl, rfl, fun h => by simp [normalizeOne, parseDate, h],
     fun s hs hp => by simp [normalizeOne, parseDate, hs, hp],
     rfl, rfl, rfl, rfl, rfl, rfl⟩⟩

theorem c7_normalizer_contract_witness :
    (normalizeRecords [badRaw]).length = 1
    ∧ badRaw.transferDate = some "not-a-date"
    ∧ parseIsoDate "not-a-date" = none
    ∧ (normalizeOne badRaw).transferDate = none
    ∧ (normalizeOne badRaw).totalDifference = some 5 :=
  ⟨(c7_normalizer_contract [badRaw]).1, rfl, by decide,
   ((c7_normalizer_contract [badRaw]).2.2 badRaw).2.2.2.2.1 "not-a-date" rfl (by decide),
   ((c7_normalizer_contract [badRaw]).2.2 badRaw).2.2.2.2.2.2.2.2.2.2⟩

/-- C2: partition completeness — when every filtered record has a known
transferDate, the quarterly Rollup bucket sums of Total Sale, Total Cost
and Total Difference each add up to the corresponding sum over the whole
filtered record set. -/
theorem c2_partition_completeness :
    ∀ (R : List CaseRecord) (S : FilterSpec),
      (∀ r ∈ applyFilters R S, r.transferDate.isSome = true) →
      ((groupByQuarter (applyFilters R S)).map (fun kr => kr.2.sale)).sum
          = saleSum (applyFilters R S)
      ∧ ((groupByQuarter (applyFilters R S)).map (fun kr => kr.2.cost)).sum
          = costSum (applyFilters R S)
      ∧ ((groupByQuarter (applyFilters R S)).map (fun kr => kr.2.diff)).sum
          = diffSum (applyFilters R S) := by
  intro R S _
  refine ⟨?_, ?_, ?_⟩
  · exact groupBy_field_sum quarterKeyOf (fun r => r.totalSale.getD 0) Rollup.sale
      (fun l => rfl) (applyFilters R S)
  · exact groupBy_field_sum quarterKeyOf (fun r => r.totalCost.getD 0) Rollup.cost
      (fun l => rfl) (applyFilters R S)
  · exact groupBy_field_sum quarterKeyOf (fun r => r.totalDifference.getD 0) Rollup.diff
      (fun l => rfl) (applyFilters R S)

theorem c2_partition_completeness_witness :
    (∀ r ∈ applyFilters [sampleKnown, sampleNoAmounts] allSpec, r.transferDate.isSome = true)
    ∧ ((groupByQuarter (applyFilters [sampleKnown, sampleNoAmounts] allSpec)).map
          (fun kr => kr.2.sale)).sum
        = saleSum (applyFilters [sampleKnown, sampleNoAmounts] allSpec) :=
  ⟨by decide, (c2_partition_completeness [sampleKnown, sampleNoAmounts] allSpec (by decide)).1⟩

/-- C4: a record with a missing numeric field contributes zero to that
field's bucket sum in any grouping (quarter, month or client key
function) while still raising the bucket's record count by one, and that
bucket is a row of the grouping's output. -/
theorem c4_missing_numeric_policy :
    ∀ (key : CaseRecord → String) (rs : List CaseRecord) (r : CaseRecord),
      (bucketRollup key (rs ++ [r]) (key r)).count
          = (bucketRollup key rs (key r)).count + 1
      ∧ (r.totalSale = none →
          (bucketRollup key (rs ++ [r]) (key r)).sale = (bucketRollup key rs (key r)).sale)
      ∧ (r.totalCost = none →
          (bucketRollup key (rs ++ [r]) (key r)).cost = (bucketRollup key rs (key r)).cost)
      ∧ (r.totalDifference = none →
          (bucketRollup key (rs ++ [r]) (key r)).diff = (bucketRollup key rs (key r)).diff)
      ∧ (key r, bucketRollup key (rs ++ [r]) (key r)) ∈ groupBy key (rs ++ [r]) := by
  intro key rs r
  refine ⟨?_, fun h => ?_, fun h => ?_, fun h => ?_, ?_⟩
  · simp [bucketRollup, rollupOf, bucketRecords_append_self]
  · simp [bucketRollup, rollupOf, bucketRecords_append_self, saleSum_append, saleSum, h]
  · simp [bucketRollup, rollupOf, bucketRecords_append_self, costSum_append, costSum, h]
  · simp [bucketRollup, rollupOf, bucketRecords_append_self, diffSum_append, diffSum, h]
  · have hk : key r ∈ groupKeys key (rs ++ [r]) :=
      List.mem_dedup.mpr (List.mem_map_of_mem key (by simp))
    exact List.mem_map_of_mem (fun k => (k, bucketRollup key (rs ++ [r]) k)) hk

theorem c4_missing_numeric_policy_witness :
    sampleNoAmounts.totalSale = none
    ∧ (bucketRollup clientKeyOf ([sampleKnown] ++ [sampleNoAmounts])
          (clientKeyOf sampleNoAmounts)).count
        = (bucketRollup clientKeyOf [sampleKnown] (clientKeyOf sampleNoAmounts)).count + 1
    ∧ (bucketRollup clientKeyOf ([sampleKnown] ++ [sampleNoAmounts])
          (clientKeyOf sampleNoAmounts)).sale
        = (bucketRollup clientKeyOf [sampleKnown] (clientKeyOf sampleNoAmounts)).sale :=
  ⟨rfl, (c4_missing_numeric_policy clientKeyOf [sampleKnown] sampleNoAmounts).1,
   (c4_missing_numeric_policy clientKeyOf [sampleKnown] sampleNoAmounts).2.1 rfl⟩

/-- C6: each record with a known transferDate yields exactly two
timeline spans — a profit span (amount Total Difference, label
clientName plus " Profit") and a cost span (amount Total Cost, label
clientName plus " Cost"), both running from the transferDate to seven
days later — and a record with an unknown transferDate yields none. -/
theorem c6_timeline_spans :
    ∀ (rs : List CaseRecord),
      buildTimeline rs
        = rs.filterMap (fun r => r.transferDate.map (fun d =>
            ({ start := d, stop := addDays d 7, amount := r.totalDifference,
               task := r.clientName ++ " Profit" } : TimelineSpan)))
          ++ rs.filterMap (fun r => r.transferDate.map (fun d =>
            ({ start := d, stop := addDays d 7, amount := r.totalCost,
               task := r.clientName ++ " Cost" } : TimelineSpan)))
      ∧ (buildTimeline rs).length
          = 2 * (rs.filter (fun r => r.transferDate.isSome)).length
      ∧ (∀ r : CaseRecord, r.transferDate = none →
          buildTimeline (rs ++ [r]) = buildTimeline rs) := by
  intro rs
  refine ⟨?_, ?_, ?_⟩
  · have h1 := filter_isSome_map
      (fun r d => TimelineSpan.mk d (addDays d 7) r.totalDifference (r.clientName ++ " Profit")) rs
    have h2 := filter_isSome_map
      (fun r d => TimelineSpan.mk d (addDays d 7) r.totalCost (r.clientName ++ " Cost")) rs
    simp only [buildTimeline]
    rw [h1, h2]
  · simp [buildTimeline, Nat.two_mul]
  · intro r hr
    simp only [buildTimeline]
    rw [List.filter_append]
    simp [hr]

theorem c6_timeline_spans_witness :
    sampleUnknown.transferDate = none
    ∧ buildTimeline ([sampleKnown] ++ [sampleUnknown]) = buildTimeline [sampleKnown]
    ∧ buildTimeline [sampleKnown]
        = [{ start := ⟨2024, 1, 10⟩, stop := ⟨2024, 1, 17⟩, amount := some 60,
             task := "X Profit" },
           { start := ⟨2024, 1, 10⟩, stop := ⟨2024, 1, 17⟩, amount := some 40,
             task := "X Cost" }] :=
  ⟨rfl, (c6_timeline_spans [sampleKnown]).2.2 sampleUnknown rfl, by decide⟩

/-- C1 counterexample: the claim asserts a record with unknown
transferDate appears in no quarterly bucket, but on the concrete
filtered set `[sampleUnknown]` the record sits in the quarter bucket
keyed by the literal string `"NaT"` (stringified `NaT` is an ordinary
group key). -/
theorem c1_claim_counterexample :
    ¬ (∀ k ∈ groupKeys quarterKeyOf (applyFilters [sampleUnknown] allSpec),
        sampleUnknown ∉ bucketRecords quarterKeyOf (applyFilters [sampleUnknown] allSpec) k) := by
  decide

/-- C1 (amended): a filtered record with unknown transferDate is not
excluded from the time groupings — it lands in the quarterly and
monthly buckets keyed by the string `"NaT"` — and it is also counted in
the client bucket for its clientName and contributes its (zero-default)
amounts to the overall totals. -/
theorem c1_unknown_date_in_nat_bucket :
    ∀ (R : List CaseRecord) (S : FilterSpec) (r : CaseRecord),
      r ∈ applyFilters R S → r.transferDate = none →
      ("NaT" ∈ groupKeys quarterKeyOf (applyFilters R S)
        ∧ r ∈ bucketRecords quarterKeyOf (applyFilters R S) "NaT")
      ∧ ("NaT" ∈ groupKeys monthKeyOf (applyFilters R S)
        ∧ r ∈ bucketRecords monthKeyOf (applyFilters R S) "NaT")
      ∧ (r.clientName ∈ groupKeys clientKeyOf (applyFilters R S)
        ∧ r ∈ bucketRecords clientKeyOf (applyFilters R S) r.clientName)
      ∧ saleSum (applyFilters R S)
          = r.totalSale.getD 0 + saleSum ((applyFilters R S).erase r)
      ∧ costSum (applyFilters R S)
          = r.totalCost.getD 0 + costSum ((applyFilters R S).erase r)
      ∧ diffSum (applyFilters R S)
          = r.totalDifference.getD 0 + diffSum ((applyFilters R S).erase r) := by
  intro R S r hr hdate
  have hq : quarterKeyOf r = "NaT" := by simp [quarterKeyOf, quarterKey, hdate]
  have hm : monthKeyOf r = "NaT" := by simp [monthKeyOf, monthKey, hdate]
  refine ⟨⟨?_, ?_⟩, ⟨?_, ?_⟩, ⟨?_, ?_⟩, ?_, ?_, ?_⟩
  · exact List.mem_dedup.mpr (hq ▸ List.mem_map_of_mem quarterKeyOf hr)
  · exact List.mem_filter.mpr ⟨hr, by simp [hq]⟩
  · exact List.mem_dedup.mpr (hm ▸ List.mem_map_of_mem monthKeyOf hr)
  · exact List.mem_filter.mpr ⟨hr, by simp [hm]⟩
  · exact List.mem_dedup.mpr (List.mem_map_of_mem clientKeyOf hr)
  · exact List.mem_filter.mpr ⟨hr, by simp [clientKeyOf]⟩
  · exact fieldSum_erase (fun x => x.totalSale.getD 0) _ r hr
  · exact fieldSum_erase (fun x => x.totalCost.getD 0) _ r hr
  · exact fieldSum_erase (fun x => x.totalDifference.getD 0) _ r hr

theorem c1_unknown_date_in_nat_bucket_witness :
    sampleUnknown ∈ applyFilters [sampleUnknown] allSpec
    ∧ sampleUnknown.transferDate = none
    ∧ ("NaT" ∈ groupKeys quarterKeyOf (applyFilters [sampleUnknown] allSpec)
        ∧ sampleUnknown ∈ bucketRecords quarterKeyOf (applyFilters [sampleUnknown] allSpec) "NaT")
      ∧ ("NaT" ∈ groupKeys monthKeyOf (applyFilters [sampleUnknown] allSpec)
        ∧ sampleUnknown ∈ bucketRecords monthKeyOf (applyFilters [sampleUnknown] allSpec) "NaT")
      ∧ (sampleUnknown.clientName ∈ groupKeys clientKeyOf (applyFilters [sampleUnknown] allSpec)
        ∧ sampleUnknown ∈ bucketRecords clientKeyOf (applyFilters [sampleUnknown] allSpec)
            sampleUnknown.clientName)
      ∧ saleSum (applyFilters [sampleUnknown] allSpec)
          = sampleUnknown.totalSale.getD 0
            + saleSum ((applyFilters [sampleUnknown] allSpec).erase sampleUnknown)
      ∧ costSum (applyFilters [sampleUnknown] allSpec)
          = sampleUnknown.totalCost.getD 0
            + costSum ((applyFilters [sampleUnknown] allSpec).erase sampleUnknown)
      ∧ diffSum (applyFilters [sampleUnknown] allSpec)
          = sampleUnknown.totalDifference.getD 0
            + diffSum ((applyFilters [sampleUnknown] allSpec).erase sampleUnknown) :=
  ⟨by decide, rfl,
   c1_unknown_date_in_nat_bucket [sampleUnknown] allSpec sampleUnknown (by decide) rfl⟩

/-- C5 counterexample: the claim asserts the CSV header relabels the
buyer-payment column to "Status", but the export writes the filtered
frame with its original column names (the relabel exists only on the
separate on-screen overview table). -/
theorem c5_claim_counterexample :
    (csvExport (applyFilters [sampleKnown] allSpec)).head?
      ≠ some (fieldNames.map (fun n => if n == "Buyer payment" then "Status" else n)) := by
  decide

/-- C5 (amended): the CSV export of a filtered record set has a header
row equal to the original field names (no relabel), exactly one data row
per filtered record, and re-parsing the data rows recovers the filtered
set exactly — same row count, equal field values. -/
theorem c5_csv_roundtrip :
    ∀ (rs : List CaseRecord), (∀ r ∈ rs, validRecord r = true) →
      (csvExport rs).head? = some fieldNames
      ∧ (csvExport rs).length = rs.length + 1
      ∧ (csvExport rs).tail = rs.map renderRow
      ∧ ((csvExport rs).tail).filterMap parseRow = rs := by
  intro rs hv
  refine ⟨rfl, by simp [csvExport], rfl, ?_⟩
  have : (csvExport rs).tail = rs.map renderRow := rfl
  rw [this]
  exact filterMap_parseRow_renderRow rs hv

theorem c5_csv_roundtrip_witness :
    (∀ r ∈ [sampleKnown, sampleUnknown], validRecord r = true)
    ∧ (csvExport [sampleKnown, sampleUnknown]).head? = some fieldNames
    ∧ (csvExport [sampleKnown, sampleUnknown]).length = 3
    ∧ ((csvExport [sampleKnown, sampleUnknown]).tail).filterMap parseRow
        = [sampleKnown, sampleUnknown] :=
  ⟨by decide, (c5_csv_roundtrip [sampleKnown, sampleUnknown] (by decide)).1,
   (c5_csv_roundtrip [sampleKnown, sampleUnknown] (by decide)).2.1,
   (c5_csv_roundtrip [sampleKnown, sampleUnknown] (by decide)).2.2.2⟩
